import Mathlib

/-!
Verification of the openmapflow data-integrity test suite and project
generator against its specification.

The development shallowly embeds the two source files:

* openmapflow/templates/integration_test_datasets.py — the dataset
  validator (class IntegrationTestLabeledData).  Pandas dataframes become
  Lean lists of structure rows, numpy arrays are represented by their
  shape (a list of dimension sizes), floating point coordinates become
  rationals, and dates become integer month indices (year * 12 + month),
  which supports exactly the operations the tests perform on them
  (ordering and month arithmetic).  Filesystem access performed by the
  tests (load_feature, Path(...).exists(), the feature directory listing
  behind load_all_features_as_df) is an explicit environment record.
  A dataset whose load_labels raises FileNotFoundError is modelled by the
  load_raises flag; load_labels skips such datasets, as in the source.

* tests/test_generate.py — tests of openmapflow/generate.py.  The
  generator module itself is not part of the sources, so the operations
  the claims mention (get_git_root, setup_dvc, fill_in_and_write_action)
  are modelled from the specification, as marked in their doc comments.

Python assertions are modelled as Boolean results (true = the check
passes); a Python exception escaping a test is modelled with Except.
-/

/- ===== generic executable list utilities used by the embedding ===== -/

/-- First-occurrence deduplication with an accumulator of already seen
values; seen values are dropped.  This is the order-preserving semantics
of pandas Series.unique(). -/
def uniqueAux {α : Type} [DecidableEq α] (seen : List α) : List α → List α
  | [] => []
  | x :: xs => if x ∈ seen then uniqueAux seen xs else x :: uniqueAux (x :: seen) xs

/-- pandas Series.unique(): distinct values in order of first appearance. -/
def uniqueList {α : Type} [DecidableEq α] (l : List α) : List α :=
  uniqueAux [] l

/-- pandas Series.value_counts(), as the list of (value, multiplicity)
pairs for each distinct value.  The tests only quantify over the pairs,
so the descending-count ordering of pandas is irrelevant and the
first-appearance order is used. -/
def value_counts {α : Type} [DecidableEq α] (l : List α) : List (α × Nat) :=
  (uniqueList l).map (fun v => (v, l.count v))

/-- Number of rows that already appeared earlier in the list: the size of
pandas DataFrame.duplicated(), which marks every occurrence after the
first. -/
def dupCountAux {α : Type} [DecidableEq α] (seen : List α) : List α → Nat
  | [] => 0
  | x :: xs => (if x ∈ seen then 1 else 0) + dupCountAux (x :: seen) xs

/-- Python "t in s" on strings, as an occurrence test on character
lists. -/
def occursIn (t : List Char) : List Char → Bool
  | [] => t.isEmpty
  | x :: xs => t.isPrefixOf (x :: xs) || occursIn t xs

/-- Characters of the final path component: everything after the last
slash (pathlib PurePath.name for the simple relative paths the suite
uses). -/
def afterLastSlash (l : List Char) : List Char :=
  l.foldl (fun acc c => if c = '/' then [] else acc ++ [c]) []

/-- Index of the last dot in a character list, counting from i. -/
def lastDotFrom (i : Nat) : List Char → Option Nat
  | [] => none
  | c :: cs =>
    match lastDotFrom (i + 1) cs with
    | some j => some j
    | none => if c = '.' then some i else none

/-- pathlib Path(p).stem: the final path component with its last suffix
removed; a dot at position zero does not start a suffix. -/
def stem (s : String) : String :=
  let base := afterLastSlash s.data
  match lastDotFrom 0 base with
  | some i => if 0 < i then String.mk (base.take i) else String.mk base
  | none => String.mk base

/-- Python " ".join(...) on a list of strings. -/
def spaceJoin : List String → String
  | [] => ""
  | [a] => a
  | a :: rest => a ++ " " ++ spaceJoin rest

/-- Python ",".join(...) on a list of strings. -/
def commaJoin : List String → String
  | [] => ""
  | [a] => a
  | a :: rest => a ++ "," ++ commaJoin rest

/- ===== data model of the validator (integration_test_datasets.py) ===== -/

/-- One row of a dataset's label table.  Column names follow
openmapflow.constants: LON, LAT, START, END, SUBSET, FEATURE_FILENAME,
FEATURE_PATH, ALREADY_EXISTS.  Coordinates are rationals standing for the
stored floating point degrees; dates are integer month indices. -/
structure LabelRow where
  lon : Rat
  lat : Rat
  start_date : Int
  end_date : Int
  subset : String
  feature_filename : String
  feature_path : String
  already_exists : Bool
deriving DecidableEq

/-- The deserialized feature artifact (openmapflow.data_instance
DataInstance) as the validator observes it: the labelled_array is kept as
its shape — none models a null array — together with the coordinates
recorded at feature-computation time. -/
structure DataInstance where
  labelled_array : Option (List Nat)
  instance_lon : Rat
  instance_lat : Rat
deriving DecidableEq

/-- One row of load_all_features_as_df(): the on-disk feature file name
plus the DataInstance fields the checks read. -/
structure FeatureRow where
  filename : String
  labelled_array : Option (List Nat)
  instance_lon : Rat
  instance_lat : Rat
  source_file : String
deriving DecidableEq

/-- One entry of the external datasets list: its name (d.dataset), its
label table, and whether d.load_labels() raises FileNotFoundError
(load_raises = true models the file not yet being available). -/
structure Dataset where
  dataset : String
  labels : List LabelRow
  load_raises : Bool
deriving DecidableEq

/-- The filesystem facts the test suite reads: the datasets list, the
feature files on disk as returned by load_all_features_as_df(), the
load_feature deserializer, whether a pickle file deserializes to a
DataInstance, and Path(p).exists(). -/
structure Env where
  datasets : List Dataset
  disk_features : List FeatureRow
  load_feature : String → DataInstance
  is_data_instance : String → Bool
  path_exists : String → Bool

/-- IntegrationTestLabeledData.load_labels: collects each dataset's label
table keyed by dataset name, silently skipping datasets whose
load_labels() raises FileNotFoundError (source lines 35-46). -/
def load_labels (e : Env) : List (String × List LabelRow) :=
  e.datasets.filterMap fun d =>
    if d.load_raises then none else some (d.dataset, d.labels)

/-- The union of referenced feature-filename stems built by
test_features_with_no_labels (source lines 49-51). -/
def feature_name_list (e : Env) : List String :=
  (load_labels e).flatMap fun p => p.2.map (·.feature_filename)

/-- test_features_with_no_labels (source lines 48-57): every feature file
stem on disk must occur among the labels' feature filenames. -/
def test_features_with_no_labels (e : Env) : Bool :=
  let features_with_no_label :=
    e.disk_features.filter fun f =>
      !((feature_name_list e).contains (stem f.filename))
  features_with_no_label.length == 0

/-- test_each_pickle_file_is_data_instance (source lines 59-79): for each
dataset, every feature file of an already-existing label must deserialize
into a DataInstance. -/
def test_each_pickle_file_is_data_instance (e : Env) : Bool :=
  (load_labels e).all fun p =>
    let labels := p.2.filter (·.already_exists)
    labels.countP (fun l => e.is_data_instance l.feature_path) == labels.length

/-- The conditional recomputation at source lines 84-87: the
ALREADY_EXISTS column is replaced by Path(p).exists() only when not all
flags are already true. -/
def cond_recompute (path_exists : String → Bool) (labels : List LabelRow) :
    List LabelRow :=
  if labels.all (·.already_exists) then labels
  else labels.map fun l => { l with already_exists := path_exists l.feature_path }

/-- The per-dataset body of test_label_feature_subset_amounts (source
lines 83-94): after the conditional recomputation, for every subset tag
in value_counts the number of labels in the subset must equal the number
of those marked already existing. -/
def subset_check_labels (path_exists : String → Bool) (labels0 : List LabelRow) :
    Bool :=
  let labels := cond_recompute path_exists labels0
  (value_counts (labels.map (·.subset))).all fun sc =>
    let features_in_subset :=
      (labels.filter (fun l => l.subset == sc.1)).countP (·.already_exists)
    sc.2 == features_in_subset

/-- test_label_feature_subset_amounts (source lines 81-99). -/
def test_label_feature_subset_amounts (e : Env) : Bool :=
  (load_labels e).all fun p => subset_check_labels e.path_exists p.2

/-- test_features_for_duplicates (source lines 101-106): no two feature
rows share the (instance_lon, instance_lat, source_file) triple. -/
def test_features_for_duplicates (e : Env) : Bool :=
  dupCountAux []
      (e.disk_features.map fun f => (f.instance_lon, f.instance_lat, f.source_file))
    == 0

/-- test_features_for_emptiness (source lines 108-115): no feature row
has a null labelled_array. -/
def test_features_for_emptiness (e : Env) : Bool :=
  (e.disk_features.filter fun f => f.labelled_array.isNone).length == 0

/-- The last dimension of an array shape: numpy f.shape[-1]. -/
def lastDim (s : List Nat) : Nat := s.getLastD 0

/-- The last-dimension sizes of the non-null feature arrays, in row
order (source lines 119-124 before unique()). -/
def band_list (features : List FeatureRow) : List Nat :=
  (features.filterMap (·.labelled_array)).map lastDim

/-- test_all_features_have_18_bands (source lines 117-125): the unique
last-dimension sizes of the non-null arrays must be exactly the
one-element list [18]. -/
def test_all_features_have_18_bands (features : List FeatureRow) : Bool :=
  uniqueList (band_list features) == [18]

/-- test_all_features_start_with_january_first (source lines 127-132):
every feature filename contains the substring "_01_01". -/
def test_all_features_start_with_january_first (e : Env) : Bool :=
  e.disk_features.all fun f => occursIn "_01_01".data f.filename.data

/-- Modelled from the spec: get_label_timesteps of
openmapflow.labeled_dataset is not under src/; the spec describes it as
the number of monthly time steps implied by the label's start/end date
range, which with month-index dates is their difference. -/
def get_label_timesteps (l : LabelRow) : Int :=
  l.end_date - l.start_date

/-- test_label_and_feature_ranges_match (source lines 134-165): for each
dataset, every already-existing label's feature array must have exactly
the label's number of monthly time steps as its first dimension (the
source reads f.shape[0] assuming the array is not null). -/
def test_label_and_feature_ranges_match (e : Env) : Bool :=
  (load_labels e).all fun p =>
    let labels := p.2.filter (·.already_exists)
    if labels.isEmpty then true
    else
      labels.all fun l =>
        (((e.load_feature l.feature_path).labelled_array.getD []).headD 0 : Int)
          == get_label_timesteps l

/-- test_labels_have_start_before_end_date (source lines 167-184). -/
def test_labels_have_start_before_end_date (e : Env) : Bool :=
  (load_labels e).all fun p => p.2.all fun l => l.start_date < l.end_date

/-- The labels the historical-completeness check restricts to (source
lines 196-197): already existing and starting strictly before the date 24
months before the rolling cutoff, passed here as the month index cut. -/
def older_labels (cut : Int) (labels : List LabelRow) : List LabelRow :=
  labels.filter fun l => l.already_exists && decide (l.start_date < cut)

/-- The first-dimension sizes (month counts) of the non-null feature
arrays of the restricted labels (source lines 200-207 before
unique()). -/
def older_months (cut : Int) (e : Env) (labels : List LabelRow) : List Nat :=
  (((older_labels cut labels).map fun l => e.load_feature l.feature_path).filterMap
      (·.labelled_array)).map fun s => s.headD 0

/-- test_all_older_features_have_24_months (source lines 186-219): for
each dataset with at least one restricted label, the unique month counts
of the non-null arrays must be exactly [24]. -/
def test_all_older_features_have_24_months (cut : Int) (e : Env) : Bool :=
  (load_labels e).all fun p =>
    if (older_labels cut p.2).isEmpty then true
    else uniqueList (older_months cut e p.2) == [24]

/-- The coordinate tolerance 0.0001 degrees of source line 236-237. -/
def tol : Rat := 1 / 10000

/-- The per-dataset mismatch count printed by test_features_for_closeness
(source lines 230-239): already-existing labels whose stored coordinate
minus the feature's instance coordinate exceeds the tolerance.  The
source compares the signed differences, without absolute value. -/
def closeness_num_mismatched (e : Env) (labels : List LabelRow) : Nat :=
  ((labels.filter (·.already_exists)).filter fun l =>
    decide (l.lon - (e.load_feature l.feature_path).instance_lon > tol)
      || decide (l.lat - (e.load_feature l.feature_path).instance_lat > tol)).length

/-- test_features_for_closeness (source lines 221-248): the source
initializes total_num_mismatched to 0, computes num_mismatched per
dataset only for printing, never adds it to the total, and asserts
total_num_mismatched == 0. -/
def test_features_for_closeness (e : Env) : Bool :=
  let _printed := (load_labels e).map fun p => closeness_num_mismatched e p.2
  let total_num_mismatched : Nat := 0
  total_num_mismatched == 0

/-- Follows the claim's words, for comparison with the source behaviour:
some already-existing label differs from its feature's recorded instance
coordinates by more than the tolerance in absolute value on some
axis. -/
def closeness_claim_violation (e : Env) : Bool :=
  (load_labels e).any fun p =>
    (p.2.filter (·.already_exists)).any fun l =>
      decide (|l.lon - (e.load_feature l.feature_path).instance_lon| > tol)
        || decide (|l.lat - (e.load_feature l.feature_path).instance_lat| > tol)

/-- Follows the claim's words, for comparison with the source behaviour:
the ALREADY_EXISTS column holds a value that disagrees with file
existence on disk. -/
def stale_flag_present (e : Env) : Bool :=
  (load_labels e).any fun p =>
    p.2.any fun l => l.already_exists != e.path_exists l.feature_path

/-- Follows the claim's words, for comparison with the source behaviour:
the subset-size check with the ALREADY_EXISTS column always recomputed
from disk before comparing. -/
def subset_check_spec_version (e : Env) : Bool :=
  (load_labels e).all fun p =>
    let labels := p.2.map fun l => { l with already_exists := e.path_exists l.feature_path }
    (value_counts (labels.map (·.subset))).all fun sc =>
      sc.2 == (labels.filter (fun l => l.subset == sc.1)).countP (·.already_exists)

/-- Follows the claim's words, for comparison with the source behaviour:
some restricted (old enough, already existing) label has a non-null
feature array whose month count is not 24. -/
def older_claim_violation (cut : Int) (e : Env) : Bool :=
  (load_labels e).any fun p =>
    p.2.any fun l =>
      l.already_exists && decide (l.start_date < cut) &&
        (match (e.load_feature l.feature_path).labelled_array with
         | some s => s.headD 0 != 24
         | none => false)

/-- The year rendered by pd.to_datetime(...).dt.year.astype(str) on a
month-index date. -/
def yearString (monthIndex : Int) : String :=
  toString (monthIndex / 12)

/-- test_label_coordinate_duplication (source lines 250-270): concatenates
all loaded label tables (pd.concat raises ValueError on an empty list),
keeps the rows whose (lon, lat) occurs more than once, groups them by
coordinate and aggregates dataset names, subsets and start years; the
grouped report is only printed, so it is returned here. -/
def test_label_coordinate_duplication (e : Env) :
    Except String (List ((Rat × Rat) × (String × String × String))) :=
  let all_dfs := load_labels e
  if all_dfs.isEmpty then Except.error "No objects to concatenate"
  else
    let big : List (String × LabelRow) :=
      all_dfs.flatMap fun p => p.2.map fun l => (p.1, l)
    let coords := big.map fun r => (r.2.lon, r.2.lat)
    let dups := big.filter fun r => 2 ≤ coords.count (r.2.lon, r.2.lat)
    Except.ok ((uniqueList (dups.map fun r => (r.2.lon, r.2.lat))).map fun cc =>
      let grp := dups.filter fun r => (r.2.lon, r.2.lat) == cc
      (cc, (commaJoin (uniqueList (grp.map (·.1))),
            commaJoin (uniqueList (grp.map (·.2.subset))),
            commaJoin (grp.map fun r => yearString r.2.start_date))))

/-- Whether the duplication report ran without raising. -/
def duplication_report_ok (e : Env) : Bool :=
  match test_label_coordinate_duplication e with
  | Except.ok _ => true
  | Except.error _ => false

/- ===== project generator (openmapflow/generate.py is not under src/;
these operations are modelled from the specification) ===== -/

/-- A prefix test entails an append decomposition. -/
def isPre_eq_append : ∀ (t l : List Char), t.isPrefixOf l = true → ∃ r, l = t ++ r
  | [], l, _ => ⟨l, rfl⟩
  | _ :: _, [], h => by simp [List.isPrefixOf] at h
  | a :: as, b :: bs, h => by
    simp only [List.isPrefixOf, Bool.and_eq_true, beq_iff_eq] at h
    obtain ⟨r, hr⟩ := isPre_eq_append as bs h.2
    exact ⟨r, by simp [h.1, hr]⟩

/-- Modelled from the spec: get_git_root of openmapflow/generate.py is
not under src/; the spec says it walks upward from a given path looking
for a .git marker directory and fails with a "not found" error if none
exists up to the filesystem root.  A path is a component list from the
root; has_git says which directories carry the marker.  The walk is
implemented on the reversed component list so that each step removes the
deepest component. -/
def walk_up (has_git : List String → Bool) : List String → Except String (List String)
  | [] => if has_git [] then Except.ok [] else Except.error "Git root not found"
  | c :: rest =>
    if has_git ((c :: rest).reverse) then Except.ok ((c :: rest).reverse)
    else walk_up has_git rest

/-- Modelled from the spec: get_git_root (see walk_up). -/
def get_git_root (has_git : List String → Bool) (p : List String) :
    Except String (List String) :=
  walk_up has_git p.reverse

/-- The four data-path attributes of the path-configuration object that
setup_dvc registers, in the fixed order the spec gives. -/
structure DataPaths where
  RAW_LABELS : String
  PROCESSED_LABELS : String
  COMPRESSED_FEATURES : String
  MODELS : String
deriving DecidableEq

/-- Modelled from the spec: setup_dvc of openmapflow/generate.py is not
under src/; the spec says it issues, in order, the literal shell command
strings dvc init; dvc add with the four data paths space-joined in the
fixed order raw labels, processed labels, compressed features, models;
dvc remote add -d gdrive gdrive:// followed by the operator-supplied
remote identifier; and dvc push.  The issued command strings are
returned in order. -/
def setup_dvc (dp : DataPaths) (gdrive_id : String) : List String :=
  ["dvc init",
   "dvc add " ++ spaceJoin [dp.RAW_LABELS, dp.PROCESSED_LABELS,
      dp.COMPRESSED_FEATURES, dp.MODELS],
   "dvc remote add -d gdrive gdrive://" ++ gdrive_id,
   "dvc push"]

/-- The literal placeholder token PREFIX in angle brackets. -/
def tokPre : List Char := ['<', 'P', 'R', 'E', 'F', 'I', 'X', '>']

/-- The literal placeholder token PATHS in angle brackets. -/
def tokPaths : List Char := ['<', 'P', 'A', 'T', 'H', 'S', '>']

/-- The literal placeholder token CD in angle brackets. -/
def tokCd : List Char := ['<', 'C', 'D', '>']

/-- Modelled from the spec: the substitution step of
fill_in_and_write_action of openmapflow/generate.py, which is not under
src/; the spec says the three placeholder tokens are replaced by the
caller-supplied strings.  The template is scanned once left to right;
at a token occurrence the replacement is emitted and the scan continues
after the token, so replacement text is never rescanned. -/
def substTokens (p a c : List Char) (l : List Char) : List Char :=
  if h1 : tokPre.isPrefixOf l then p ++ substTokens p a c (l.drop 8)
  else if h2 : tokPaths.isPrefixOf l then a ++ substTokens p a c (l.drop 7)
  else if h3 : tokCd.isPrefixOf l then c ++ substTokens p a c (l.drop 4)
  else
    match l with
    | [] => []
    | x :: xs => x :: substTokens p a c xs
termination_by l.length
decreasing_by
· obtain ⟨r, hr⟩ := isPre_eq_append _ _ h1
  subst hr; simp [tokPre]; omega
· obtain ⟨r, hr⟩ := isPre_eq_append _ _ h2
  subst hr; simp [tokPaths]; omega
· obtain ⟨r, hr⟩ := isPre_eq_append _ _ h3
  subst hr; simp [tokCd]; omega
· simp

/-- Modelled from the spec: fill_in_and_write_action of
openmapflow/generate.py is not under src/; the spec says it replaces the
tokens with the caller-supplied strings, asserting that every
placeholder existed pre-substitution and that none remains
post-substitution, failing loudly otherwise.  Strings are represented by
their character lists; on success the written file content is
returned. -/
def fill_in_and_write_action (template subPre subPaths subCd : List Char) :
    Except String (List Char) :=
  if occursIn tokPre template && occursIn tokPaths template && occursIn tokCd template
  then
    let out := substTokens subPre subPaths subCd template
    if occursIn tokPre out || occursIn tokPaths out || occursIn tokCd out
    then Except.error "placeholder token left after substitution"
    else Except.ok out
  else Except.error "placeholder token missing from template"

/-- Modelled from the spec: the yaml.safe_load parse check the source
test applies to the template and to the written result (lines 76 and 92
of tests/test_generate.py).  PyYAML is an external collaborator and
neither the source under src/ nor the spec fixes a YAML grammar, so the
model captures the parse condition on which every YAML processor agrees
for the plain-scalar block mappings the scenario uses: a flow sequence
opened with a left square bracket must be closed by a matching right
square bracket before the document ends (an unterminated flow collection
is a parse error in every YAML implementation).  The accumulator is the
current flow-nesting depth. -/
def yamlFlowBalancedAux : Nat → List Char → Bool
  | depth, [] => depth == 0
  | depth, c :: cs =>
    if c = '[' then yamlFlowBalancedAux (depth + 1) cs
    else if c = ']' then
      match depth with
      | 0 => false
      | d + 1 => yamlFlowBalancedAux d cs
    else yamlFlowBalancedAux depth cs

/-- Modelled from the spec: whether yaml.safe_load accepts the document
(see yamlFlowBalancedAux). -/
def yaml_safe_load_ok (l : List Char) : Bool :=
  yamlFlowBalancedAux 0 l

/-- A minimal valid workflow template: a block mapping of plain scalars
containing the three placeholder tokens.  Accepted by yaml.safe_load and
by the model. -/
def yamlScenarioTemplate : List Char :=
  "name: <PREFIX>\npaths: <PATHS>\nrun: <CD>\n".data

/-- The result of substituting the spec scenario's values proj,
data/proj, cd data/proj into yamlScenarioTemplate: still a block mapping
of plain scalars, accepted by yaml.safe_load and by the model. -/
def yamlScenarioOut : List Char :=
  "name: proj\npaths: data/proj\nrun: cd data/proj\n".data

/-- The result of substituting an adversarial first string that opens an
unterminated flow sequence: both placeholder assertions still pass, but
no YAML processor parses this document. -/
def yamlBrokenOut : List Char :=
  "name: [\npaths: q\nrun: r\n".data

/- ===== state-threaded run of the whole validator (for the frame
property): each check takes the environment and returns its result
together with the environment it leaves behind.  The source tests only
read (the sole deletion, labels[FEATURE_PATH].apply(lambda p:
Path(p).unlink()) at lines 155-157, is commented out), so each check
returns the environment unchanged. ===== -/

def test_features_with_no_labels_st (e : Env) : Bool × Env :=
  (test_features_with_no_labels e, e)

def test_each_pickle_file_is_data_instance_st (e : Env) : Bool × Env :=
  (test_each_pickle_file_is_data_instance e, e)

def test_label_feature_subset_amounts_st (e : Env) : Bool × Env :=
  (test_label_feature_subset_amounts e, e)

def test_features_for_duplicates_st (e : Env) : Bool × Env :=
  (test_features_for_duplicates e, e)

def test_features_for_emptiness_st (e : Env) : Bool × Env :=
  (test_features_for_emptiness e, e)

def test_all_features_have_18_bands_st (e : Env) : Bool × Env :=
  (test_all_features_have_18_bands e.disk_features, e)

def test_all_features_start_with_january_first_st (e : Env) : Bool × Env :=
  (test_all_features_start_with_january_first e, e)

def test_label_and_feature_ranges_match_st (e : Env) : Bool × Env :=
  (test_label_and_feature_ranges_match e, e)

def test_labels_have_start_before_end_date_st (e : Env) : Bool × Env :=
  (test_labels_have_start_before_end_date e, e)

def test_all_older_features_have_24_months_st (cut : Int) (e : Env) : Bool × Env :=
  (test_all_older_features_have_24_months cut e, e)

def test_features_for_closeness_st (e : Env) : Bool × Env :=
  (test_features_for_closeness e, e)

def test_label_coordinate_duplication_st (e : Env) : Bool × Env :=
  (duplication_report_ok e, e)

/-- All twelve validator checks run in source order, threading the
environment through each. -/
def runAllChecks (cut : Int) (e : Env) : List Bool × Env :=
  let r1 := test_features_with_no_labels_st e
  let r2 := test_each_pickle_file_is_data_instance_st r1.2
  let r3 := test_label_feature_subset_amounts_st r2.2
  let r4 := test_features_for_duplicates_st r3.2
  let r5 := test_features_for_emptiness_st r4.2
  let r6 := test_all_features_have_18_bands_st r5.2
  let r7 := test_all_features_start_with_january_first_st r6.2
  let r8 := test_label_and_feature_ranges_match_st r7.2
  let r9 := test_labels_have_start_before_end_date_st r8.2
  let r10 := test_all_older_features_have_24_months_st cut r9.2
  let r11 := test_features_for_closeness_st r10.2
  let r12 := test_label_coordinate_duplication_st r11.2
  ([r1.1, r2.1, r3.1, r4.1, r5.1, r6.1, r7.1, r8.1, r9.1, r10.1, r11.1, r12.1],
   r12.2)

/- ===== concrete instances evaluated in the theorems ===== -/

/-- A label whose stored longitude differs from the feature's recorded
instance longitude by a full degree. -/
def lblMismatch : LabelRow :=
  ⟨1, 0, 0, 24, "train", "f1", "data/features/f1.pkl", true⟩

/-- A feature artifact recorded at the origin with a 24 x 18 array. -/
def diZero : DataInstance := ⟨some [24, 18], 0, 0⟩

/-- A feature artifact with a null labelled_array. -/
def diNull : DataInstance := ⟨none, 0, 0⟩

/-- One dataset, one already-existing label a degree away from its
feature's recorded coordinates. -/
def envMismatch : Env :=
  ⟨[⟨"geowiki", [lblMismatch], false⟩], [], fun _ => diZero, fun _ => true,
   fun _ => true⟩

/-- A label flagged as already existing whose feature path does not
exist on disk in envStale. -/
def lblStale : LabelRow :=
  ⟨0, 0, 0, 24, "train", "f1", "data/features/f1.pkl", true⟩

/-- One dataset whose only label carries a stale already-exists flag:
the flag is true but the file does not exist on disk. -/
def envStale : Env :=
  ⟨[⟨"geowiki", [lblStale], false⟩], [], fun _ => diZero, fun _ => true,
   fun _ => false⟩

/-- An already-existing label starting at month index 0. -/
def lblOld : LabelRow :=
  ⟨0, 0, 0, 24, "train", "f1", "data/features/f1.pkl", true⟩

/-- One dataset whose only label is older than the cutoff and whose
feature has a null labelled_array. -/
def envNullOld : Env :=
  ⟨[⟨"geowiki", [lblOld], false⟩], [], fun _ => diNull, fun _ => true,
   fun _ => true⟩

/-- An environment in which the only dataset's load_labels raises
FileNotFoundError, so no dataset loads. -/
def envAllRaise : Env :=
  ⟨[⟨"geowiki", [], true⟩], [], fun _ => diNull, fun _ => true, fun _ => true⟩

/-- An environment in which one dataset loads successfully. -/
def envOneLoads : Env :=
  ⟨[⟨"geowiki", [], false⟩], [], fun _ => diNull, fun _ => true, fun _ => true⟩

/-- A dataset whose load_labels raises although its labels reference the
feature file f1. -/
def dSkip : Dataset := ⟨"geowiki", [lblOld], true⟩

/-- A feature file on disk whose stem f1 is referenced only by the labels
of dSkip. -/
def fOrphan : FeatureRow := ⟨"f1.pkl", some [24, 18], 0, 0, "src.tif"⟩

/-- An environment where the only dataset referencing the on-disk feature
file fails to load. -/
def envSkip : Env :=
  ⟨[dSkip], [fOrphan], fun _ => diZero, fun _ => true, fun _ => true⟩

/-- A filesystem in which exactly the directory repo carries a .git
marker. -/
def markedRepo : List String → Bool := fun l => l == ["repo"]

/- ===== helper lemmas ===== -/

theorem mem_uniqueAux {α : Type} [DecidableEq α] (a : α) :
    ∀ (l seen : List α), a ∈ uniqueAux seen l ↔ a ∈ l ∧ a ∉ seen := by
  intro l
  induction l with
  | nil => simp [uniqueAux]
  | cons x xs ih =>
    intro seen
    by_cases hx : x ∈ seen
    · simp only [uniqueAux, if_pos hx, ih]
      constructor
      · exact fun h => ⟨List.mem_cons_of_mem _ h.1, h.2⟩
      · rintro ⟨hmem, hns⟩
        rcases List.mem_cons.mp hmem with rfl | hmem
        · exact absurd hx hns
        · exact ⟨hmem, hns⟩
    · simp only [uniqueAux, if_neg hx, List.mem_cons, ih]
      constructor
      · rintro (rfl | ⟨hmem, hns⟩)
        · exact ⟨Or.inl rfl, hx⟩
        · refine ⟨Or.inr hmem, fun hs => hns ?_⟩
          simp [hs]
      · rintro ⟨rfl | hmem, hns⟩
        · exact Or.inl rfl
        · by_cases hxa : a = x
          · exact Or.inl hxa
          · refine Or.inr ⟨hmem, fun hs => ?_⟩
            rcases hs with h | h
            · exact hxa h
            · exact hns h

theorem mem_uniqueList {α : Type} [DecidableEq α] (a : α) (l : List α) :
    a ∈ uniqueList l ↔ a ∈ l := by
  simp [uniqueList, mem_uniqueAux]

theorem uniqueAux_eq_nil {α : Type} [DecidableEq α] :
    ∀ (l seen : List α), uniqueAux seen l = [] ↔ ∀ x ∈ l, x ∈ seen := by
  intro l
  induction l with
  | nil => simp [uniqueAux]
  | cons x xs ih =>
    intro seen
    by_cases hx : x ∈ seen
    · simp only [uniqueAux, if_pos hx, ih, List.mem_cons]
      constructor
      · rintro h y (rfl | hy)
        · exact hx
        · exact h y hy
      · exact fun h y hy => h y (Or.inr hy)
    · simp only [uniqueAux, if_neg hx]
      constructor
      · intro h; exact absurd h (List.cons_ne_nil _ _)
      · intro h; exact absurd (h x (List.mem_cons_self _ _)) hx

theorem uniqueAux_eq_single {α : Type} [DecidableEq α] (n : α) :
    ∀ (l seen : List α), uniqueAux seen l = [n] ↔
      n ∉ seen ∧ n ∈ l ∧ ∀ x ∈ l, x ∈ seen ∨ x = n := by
  intro l
  induction l with
  | nil => simp [uniqueAux]
  | cons x xs ih =>
    intro seen
    by_cases hx : x ∈ seen
    · simp only [uniqueAux, if_pos hx, ih, List.mem_cons]
      constructor
      · rintro ⟨hns, hmem, hall⟩
        refine ⟨hns, Or.inr hmem, ?_⟩
        rintro y (rfl | hy)
        · exact Or.inl hx
        · exact hall y hy
      · rintro ⟨hns, rfl | hmem, hall⟩
        · exact absurd hx hns
        · exact ⟨hns, hmem, fun y hy => hall y (Or.inr hy)⟩
    · simp only [uniqueAux, if_neg hx]
      constructor
      · intro h
        have hx_eq : x = n ∧ uniqueAux (x :: seen) xs = [] := by
          simpa using h
        obtain ⟨rfl, hnil⟩ := hx_eq
        have hall := (uniqueAux_eq_nil xs (x :: seen)).mp hnil
        refine ⟨hx, List.mem_cons_self _ _, ?_⟩
        intro y hy
        rcases List.mem_cons.mp hy with rfl | hy2
        · exact Or.inr rfl
        · rcases List.mem_cons.mp (hall y hy2) with h1 | h1
          · exact Or.inr h1
          · exact Or.inl h1
      · rintro ⟨hns, _, hall⟩
        have hxn : x = n := by
          rcases hall x (List.mem_cons_self _ _) with h1 | h1
          · exact absurd h1 hx
          · exact h1
        subst hxn
        have hnil : uniqueAux (x :: seen) xs = [] := by
          refine (uniqueAux_eq_nil xs (x :: seen)).mpr fun y hy => ?_
          rcases hall y (List.mem_cons_of_mem _ hy) with h1 | h1
          · exact List.mem_cons_of_mem _ h1
          · exact h1 ▸ List.mem_cons_self _ _
        simp [hnil]

theorem uniqueList_eq_single {α : Type} [DecidableEq α] (n : α) (l : List α) :
    uniqueList l = [n] ↔ l ≠ [] ∧ ∀ x ∈ l, x = n := by
  rw [uniqueList, uniqueAux_eq_single]
  constructor
  · rintro ⟨-, hmem, hall⟩
    refine ⟨List.ne_nil_of_mem hmem, fun x hx => ?_⟩
    rcases hall x hx with h1 | h1
    · exact absurd h1 (List.not_mem_nil x)
    · exact h1
  · rintro ⟨hne, hall⟩
    obtain ⟨y, hy⟩ := List.exists_mem_of_ne_nil l hne
    refine ⟨List.not_mem_nil n, hall y hy ▸ hy, fun x hx => Or.inr (hall x hx)⟩

theorem occursIn_cons_of (t : List Char) (x : Char) (xs : List Char)
    (h : occursIn t xs = true) : occursIn t (x :: xs) = true := by
  simp [occursIn, h]

theorem occursIn_append_of (t r : List Char) :
    ∀ s : List Char, occursIn t r = true → occursIn t (s ++ r) = true := by
  intro s
  induction s with
  | nil => exact fun h => h
  | cons y ys ih => exact fun h => occursIn_cons_of t y (ys ++ r) (ih h)

theorem isPre_append_self : ∀ (t r : List Char), t.isPrefixOf (t ++ r) = true := by
  intro t r
  induction t with
  | nil => simp [List.isPrefixOf]
  | cons a as ih => simp [List.isPrefixOf, ih]

theorem occursIn_of_isPre (t l : List Char) (h : t.isPrefixOf l = true) :
    occursIn t l = true := by
  cases l with
  | nil =>
    cases t with
    | nil => rfl
    | cons a as => simp [List.isPrefixOf] at h
  | cons x xs => simp [occursIn, h]

theorem occursIn_self_append (t r : List Char) : occursIn t (t ++ r) = true :=
  occursIn_of_isPre t (t ++ r) (isPre_append_self t r)

theorem occursIn_tokPaths_tokPre (r : List Char) :
    occursIn tokPaths (tokPre ++ r) = occursIn tokPaths r := by
  simp +decide [tokPre, tokPaths, occursIn, List.isPrefixOf]

theorem occursIn_tokCd_tokPre (r : List Char) :
    occursIn tokCd (tokPre ++ r) = occursIn tokCd r := by
  simp +decide [tokPre, tokCd, occursIn, List.isPrefixOf]

theorem occursIn_tokPre_tokPaths (r : List Char) :
    occursIn tokPre (tokPaths ++ r) = occursIn tokPre r := by
  simp +decide [tokPre, tokPaths, occursIn, List.isPrefixOf]

theorem occursIn_tokCd_tokPaths (r : List Char) :
    occursIn tokCd (tokPaths ++ r) = occursIn tokCd r := by
  simp +decide [tokCd, tokPaths, occursIn, List.isPrefixOf]

theorem occursIn_tokPre_tokCd (r : List Char) :
    occursIn tokPre (tokCd ++ r) = occursIn tokPre r := by
  simp +decide [tokPre, tokCd, occursIn, List.isPrefixOf]

theorem occursIn_tokPaths_tokCd (r : List Char) :
    occursIn tokPaths (tokCd ++ r) = occursIn tokPaths r := by
  simp +decide [tokPaths, tokCd, occursIn, List.isPrefixOf]

theorem drop_tokPre_append (r : List Char) : (tokPre ++ r).drop 8 = r := by
  simp [tokPre]

theorem drop_tokPaths_append (r : List Char) : (tokPaths ++ r).drop 7 = r := by
  simp [tokPaths]

theorem drop_tokCd_append (r : List Char) : (tokCd ++ r).drop 4 = r := by
  simp [tokCd]

theorem occursIn_substTokens_tokPre (p a c : List Char) :
    ∀ (n : Nat) (l : List Char), l.length ≤ n → occursIn tokPre l = true →
      occursIn p (substTokens p a c l) = true := by
  intro n
  induction n with
  | zero =>
    intro l hlen hocc
    have : l = [] := List.eq_nil_of_length_eq_zero (Nat.le_zero.mp hlen)
    subst this
    simp [occursIn, tokPre] at hocc
  | succ n ih =>
    intro l hlen hocc
    rw [substTokens]
    split_ifs with h1 h2 h3
    · exact occursIn_self_append p _
    · obtain ⟨r, rfl⟩ := isPre_eq_append _ _ h2
      rw [occursIn_tokPre_tokPaths] at hocc
      rw [drop_tokPaths_append]
      refine occursIn_append_of p _ a (ih r ?_ hocc)
      have := hlen
      simp [tokPaths] at this
      omega
    · obtain ⟨r, rfl⟩ := isPre_eq_append _ _ h3
      rw [occursIn_tokPre_tokCd] at hocc
      rw [drop_tokCd_append]
      refine occursIn_append_of p _ c (ih r ?_ hocc)
      have := hlen
      simp [tokCd] at this
      omega
    · cases l with
      | nil => simp [occursIn, tokPre] at hocc
      | cons x xs =>
        have hx : tokPre.isPrefixOf (x :: xs) = false := by
          exact Bool.not_eq_true _ ▸ eq_false_of_ne_true h1
        rw [occursIn, hx, Bool.false_or] at hocc
        have hlen2 : xs.length ≤ n := by
          simp at hlen; omega
        exact occursIn_cons_of p x _ (ih xs hlen2 hocc)

theorem occursIn_substTokens_tokPaths (p a c : List Char) :
    ∀ (n : Nat) (l : List Char), l.length ≤ n → occursIn tokPaths l = true →
      occursIn a (substTokens p a c l) = true := by
  intro n
  induction n with
  | zero =>
    intro l hlen hocc
    have : l = [] := List.eq_nil_of_length_eq_zero (Nat.le_zero.mp hlen)
    subst this
    simp [occursIn, tokPaths] at hocc
  | succ n ih =>
    intro l hlen hocc
    rw [substTokens]
    split_ifs with h1 h2 h3
    · obtain ⟨r, rfl⟩ := isPre_eq_append _ _ h1
      rw [occursIn_tokPaths_tokPre] at hocc
      rw [drop_tokPre_append]
      refine occursIn_append_of a _ p (ih r ?_ hocc)
      have := hlen
      simp [tokPre] at this
      omega
    · exact occursIn_self_append a _
    · obtain ⟨r, rfl⟩ := isPre_eq_append _ _ h3
      rw [occursIn_tokPaths_tokCd] at hocc
      rw [drop_tokCd_append]
      refine occursIn_append_of a _ c (ih r ?_ hocc)
      have := hlen
      simp [tokCd] at this
      omega
    · cases l with
      | nil => simp [occursIn, tokPaths] at hocc
      | cons x xs =>
        have hx : tokPaths.isPrefixOf (x :: xs) = false := by
          exact Bool.not_eq_true _ ▸ eq_false_of_ne_true h2
        rw [occursIn, hx, Bool.false_or] at hocc
        have hlen2 : xs.length ≤ n := by
          simp at hlen; omega
        exact occursIn_cons_of a x _ (ih xs hlen2 hocc)

theorem occursIn_substTokens_tokCd (p a c : List Char) :
    ∀ (n : Nat) (l : List Char), l.length ≤ n → occursIn tokCd l = true →
      occursIn c (substTokens p a c l) = true := by
  intro n
  induction n with
  | zero =>
    intro l hlen hocc
    have : l = [] := List.eq_nil_of_length_eq_zero (Nat.le_zero.mp hlen)
    subst this
    simp [occursIn, tokCd] at hocc
  | succ n ih =>
    intro l hlen hocc
    rw [substTokens]
    split_ifs with h1 h2 h3
    · obtain ⟨r, rfl⟩ := isPre_eq_append _ _ h1
      rw [occursIn_tokCd_tokPre] at hocc
      rw [drop_tokPre_append]
      refine occursIn_append_of c _ p (ih r ?_ hocc)
      have := hlen
      simp [tokPre] at this
      omega
    · obtain ⟨r, rfl⟩ := isPre_eq_append _ _ h2
      rw [occursIn_tokCd_tokPaths] at hocc
      rw [drop_tokPaths_append]
      refine occursIn_append_of c _ a (ih r ?_ hocc)
      have := hlen
      simp [tokPaths] at this
      omega
    · exact occursIn_self_append c _
    · cases l with
      | nil => simp [occursIn, tokCd] at hocc
      | cons x xs =>
        have hx : tokCd.isPrefixOf (x :: xs) = false := by
          exact Bool.not_eq_true _ ▸ eq_false_of_ne_true h3
        rw [occursIn, hx, Bool.false_or] at hocc
        have hlen2 : xs.length ≤ n := by
          simp at hlen; omega
        exact occursIn_cons_of c x _ (ih xs hlen2 hocc)

theorem walk_up_found (hg : List String → Bool) (q : List String)
    (h : hg q = true) : walk_up hg q.reverse = Except.ok q := by
  rcases hq : q.reverse with _ | ⟨c, rest⟩
  · have : q = [] := by
      have := congrArg List.reverse hq
      simpa using this
    subst this
    simp [walk_up, h]
  · have hqeq : (c :: rest).reverse = q := by
      rw [← hq, List.reverse_reverse]
    rw [walk_up, hqeq, h]
    simp

theorem walk_up_not_found (hg : List String → Bool) :
    ∀ r : List String, (∀ n, hg (r.reverse.take n) = false) →
      walk_up hg r = Except.error "Git root not found" := by
  intro r
  induction r with
  | nil =>
    intro h
    have h0 := h 0
    simp at h0
    simp [walk_up, h0]
  | cons c rest ih =>
    intro h
    have hfull : hg ((c :: rest).reverse) = false := by
      have h2 := h ((c :: rest).reverse.length)
      rwa [List.take_length] at h2
    rw [walk_up, hfull]
    simp only [Bool.false_eq_true, if_false]
    refine ih fun n => ?_
    by_cases hn : n ≤ rest.length
    · have : rest.reverse.take n = (c :: rest).reverse.take n := by
        rw [List.reverse_cons, List.take_append_eq_append_take]
        have : n - rest.reverse.length = 0 := by simp; omega
        rw [this]
        simp
      rw [this]
      exact h n
    · have hr : rest.reverse.take n = rest.reverse := by
        apply List.take_of_length_le
        simp; omega
      have hr2 : (c :: rest).reverse.take rest.length = rest.reverse := by
        rw [List.reverse_cons, List.take_append_eq_append_take]
        simp
      rw [hr, ← hr2]
      exact h rest.length

theorem subset_count_conversion (L : List LabelRow) (s : String) :
    (L.map (·.subset)).count s = (L.filter fun l => l.subset == s).length := by
  rw [List.count_eq_countP, List.countP_map, List.countP_eq_length_filter]
  rfl

theorem subset_countP_conversion (L : List LabelRow) (s : String) :
    (L.filter fun l => l.subset == s).countP (·.already_exists) =
      (L.filter fun l => l.subset == s && l.already_exists).length := by
  rw [List.countP_eq_length_filter, List.filter_filter]
  simp [Bool.and_comm]

theorem subset_check_labels_iff (pe : String → Bool) (ls : List LabelRow) :
    subset_check_labels pe ls = true ↔
      ∀ s ∈ (cond_recompute pe ls).map (·.subset),
        ((cond_recompute pe ls).filter fun l => l.subset == s).length =
          ((cond_recompute pe ls).filter
              fun l => l.subset == s && l.already_exists).length := by
  rw [subset_check_labels, List.all_eq_true]
  constructor
  · intro h s hs
    have hmem : (s, ((cond_recompute pe ls).map (·.subset)).count s) ∈
        value_counts ((cond_recompute pe ls).map (·.subset)) := by
      rw [value_counts]
      exact List.mem_map_of_mem _ ((mem_uniqueList s _).mpr hs)
    have h2 := h _ hmem
    rw [beq_iff_eq] at h2
    rw [← subset_count_conversion, ← subset_countP_conversion]
    exact h2
  · intro h sc hsc
    rw [value_counts] at hsc
    obtain ⟨s, hs, rfl⟩ := List.mem_map.mp hsc
    rw [beq_iff_eq]
    have h2 := h s ((mem_uniqueList s _).mp hs)
    rw [← subset_count_conversion, ← subset_countP_conversion] at h2
    exact h2

/- ===== claim theorems ===== -/

/-- C9: every validator check leaves the environment (datasets, label
sources, feature files, filesystem) unchanged: running all twelve checks
threaded through the state returns the initial state.  The source only
reads — its sole deletion (source lines 155-157) is commented out — so
each embedded check is a pure observation of the environment. -/
theorem validator_checks_preserve_state (cut : Int) (e : Env) :
    (runAllChecks cut e).2 = e := rfl

/-- C5 counterexample: when no dataset loads successfully (here the only
dataset's load_labels raises FileNotFoundError), the coordinate
duplication report does not pass silently: pd.concat of an empty list
raises ValueError, contradicting the claim that the report never fails
for any input. -/
theorem coordinate_duplication_raises_on_no_datasets :
    test_label_coordinate_duplication envAllRaise =
      Except.error "No objects to concatenate" := rfl

/-- C5 amended: the coordinate-duplication report never fails provided at
least one dataset loads successfully; it then only computes and prints
the grouped report. -/
theorem coordinate_duplication_ok_of_loaded (e : Env)
    (h : (load_labels e).isEmpty = false) :
    ∃ r, test_label_coordinate_duplication e = Except.ok r := by
  rw [test_label_coordinate_duplication, if_neg (by simp [h])]
  exact ⟨_, rfl⟩

/-- C5 witness: a concrete environment with one successfully loading
dataset on which the report succeeds. -/
theorem coordinate_duplication_ok_witness :
    (load_labels envOneLoads).isEmpty = false ∧
      ∃ r, test_label_coordinate_duplication envOneLoads = Except.ok r :=
  ⟨rfl, coordinate_duplication_ok_of_loaded envOneLoads rfl⟩

/-- C2 counterexample: on a feature table with no non-null arrays (here
the empty table) the band-count check fails, because the unique
last-dimension list is [] and not [18]; the claim says the check passes
vacuously there. -/
theorem bands_check_fails_on_empty :
    test_all_features_have_18_bands [] = false := by decide

/-- C2 amended: the band-count check passes iff at least one feature row
has a non-null labelled_array and every non-null labelled_array has
last-dimension size exactly 18. -/
theorem bands_check_iff (features : List FeatureRow) :
    test_all_features_have_18_bands features = true ↔
      (∃ f ∈ features, f.labelled_array ≠ none) ∧
        ∀ f ∈ features, ∀ s, f.labelled_array = some s → lastDim s = 18 := by
  have hbl : band_list features = [] ↔ ∀ f ∈ features, f.labelled_array = none := by
    rw [band_list, List.map_eq_nil_iff, List.filterMap_eq_nil_iff]
  rw [test_all_features_have_18_bands, beq_iff_eq, uniqueList_eq_single]
  constructor
  · rintro ⟨hne, hall⟩
    constructor
    · by_contra hno
      push_neg at hno
      exact hne (hbl.mpr hno)
    · intro f hf s hs
      apply hall
      rw [band_list]
      exact List.mem_map_of_mem lastDim (List.mem_filterMap.mpr ⟨f, hf, hs⟩)
  · rintro ⟨⟨f, hf, hne⟩, hall⟩
    constructor
    · intro hnil
      rw [hbl] at hnil
      exact hne (hnil f hf)
    · intro b hb
      rw [band_list] at hb
      obtain ⟨s, hs, rfl⟩ := List.mem_map.mp hb
      obtain ⟨f2, hf2, hsome⟩ := List.mem_filterMap.mp hs
      exact hall f2 hf2 s hsome

/-- C6 counterexample: a dataset whose only old-enough, already-existing
label has a null feature array makes the historical-completeness check
fail (the unique month-count list is [], not [24]) although no label has
a feature array with a time-step count different from 24, so the claimed
if-and-only-if is false at this input. -/
theorem older_check_claim_counterexample :
    test_all_older_features_have_24_months 1 envNullOld = false ∧
      older_claim_violation 1 envNullOld = false := by decide

/-- C6 amended: the historical-completeness check passes iff for every
loaded dataset that has at least one label older than the cutoff with an
existing feature, at least one of those features has a non-null array
and every non-null such array has exactly 24 time steps. -/
theorem older_months_check_iff (cut : Int) (e : Env) :
    test_all_older_features_have_24_months cut e = true ↔
      ∀ p ∈ load_labels e, older_labels cut p.2 = [] ∨
        (older_months cut e p.2 ≠ [] ∧ ∀ m ∈ older_months cut e p.2, m = 24) := by
  rw [test_all_older_features_have_24_months, List.all_eq_true]
  constructor
  · intro h p hp
    have h2 := h p hp
    by_cases hemp : (older_labels cut p.2).isEmpty = true
    · exact Or.inl (List.isEmpty_iff.mp hemp)
    · right
      rw [if_neg hemp, beq_iff_eq, uniqueList_eq_single] at h2
      exact h2
  · intro h p hp
    rcases h p hp with hnil | ⟨hne, hall⟩
    · rw [if_pos (List.isEmpty_iff.mpr hnil)]
    · by_cases hemp : (older_labels cut p.2).isEmpty = true
      · rw [if_pos hemp]
      · rw [if_neg hemp, beq_iff_eq, uniqueList_eq_single]
        exact ⟨hne, hall⟩

/-- C7: setup_dvc issues exactly the four shell command strings in order:
dvc init, dvc add with the four data paths space-joined in the fixed
order raw labels, processed labels, compressed features, models, the
gdrive remote registration with the supplied identifier, and dvc
push. -/
theorem setup_dvc_commands (dp : DataPaths) (gdrive_id : String) :
    setup_dvc dp gdrive_id =
      ["dvc init",
       "dvc add " ++ dp.RAW_LABELS ++ " " ++ dp.PROCESSED_LABELS ++ " " ++
         dp.COMPRESSED_FEATURES ++ " " ++ dp.MODELS,
       "dvc remote add -d gdrive gdrive://" ++ gdrive_id,
       "dvc push"] := by
  simp [setup_dvc, spaceJoin, String.append_assoc]

/-- C4 counterexample: a dataset whose only label is flagged already
existing while its feature file does not exist on disk (a stale flag) is
not recomputed, because recomputation only happens when some flag is
false; the check passes although recomputing from disk as the claim
requires would make it fail. -/
theorem subset_amounts_claim_counterexample :
    test_label_feature_subset_amounts envStale = true ∧
      stale_flag_present envStale = true ∧
      subset_check_spec_version envStale = false := by decide

/-- C4 amended: the already-exists column is recomputed from disk only
when not every flag is already true (so a stale true flag among all-true
flags goes undetected); after that conditional recomputation, the check
passes iff for each dataset and each subset tag the number of labels in
the subset equals the number of those marked already existing. -/
theorem subset_amounts_check_iff (e : Env) :
    test_label_feature_subset_amounts e = true ↔
      ∀ p ∈ load_labels e,
        ∀ s ∈ (cond_recompute e.path_exists p.2).map (·.subset),
          ((cond_recompute e.path_exists p.2).filter fun l => l.subset == s).length =
            ((cond_recompute e.path_exists p.2).filter
                fun l => l.subset == s && l.already_exists).length := by
  rw [test_label_feature_subset_amounts, List.all_eq_true]
  exact forall_congr' fun p => imp_congr_right fun _ =>
    subset_check_labels_iff e.path_exists p.2

/-- C3: git-root lookup from a directory none of whose ancestors (itself
included, up to the filesystem root) carries a .git marker returns the
"not found" error, and from a subdirectory of a marked directory returns
that marked directory. -/
theorem get_git_root_spec (hg : List String → Bool) (p q : List String) (d : String)
    (h1 : ∀ n, n ≤ p.length → hg (p.take n) = false)
    (h2 : hg q = true) (h3 : hg (q ++ [d]) = false) :
    get_git_root hg p = Except.error "Git root not found" ∧
      get_git_root hg (q ++ [d]) = Except.ok q := by
  constructor
  · rw [get_git_root]
    apply walk_up_not_found
    intro n
    rw [List.reverse_reverse]
    by_cases hn : n ≤ p.length
    · exact h1 n hn
    · rw [List.take_of_length_le (by omega)]
      have h4 := h1 p.length le_rfl
      rwa [List.take_length] at h4
  · rw [get_git_root]
    have hrev : (q ++ [d]).reverse = d :: q.reverse := by simp
    rw [hrev, walk_up]
    have hback : (d :: q.reverse).reverse = q ++ [d] := by simp
    rw [hback, h3]
    simp only [Bool.false_eq_true, if_false]
    exact walk_up_found hg q h2

/-- C3 witness: in a filesystem where exactly the directory repo is
marked, lookup from the unrelated directory tmp/x errors and lookup from
repo/sub returns repo. -/
theorem get_git_root_witness :
    get_git_root markedRepo ["tmp", "x"] = Except.error "Git root not found" ∧
      get_git_root markedRepo (["repo"] ++ ["sub"]) = Except.ok ["repo"] :=
  get_git_root_spec markedRepo ["tmp", "x"] ["repo"] "sub" (by decide) (by decide)
    (by decide)

/-- C10: when a dataset's load_labels raises FileNotFoundError, its label
filenames are omitted from the union of referenced stems, so a feature
file on disk whose stem is referenced only by that dataset is counted as
an orphan and the orphan-feature check fails. -/
theorem orphan_check_fails_for_skipped_dataset (e : Env) (d : Dataset)
    (f : FeatureRow) (hd : d ∈ e.datasets) (hraise : d.load_raises = true)
    (hf : f ∈ e.disk_features)
    (hbelong : stem f.filename ∈ d.labels.map (·.feature_filename))
    (honly : ∀ d2 ∈ e.datasets, d2.load_raises = false →
      stem f.filename ∉ d2.labels.map (·.feature_filename)) :
    test_features_with_no_labels e = false := by
  have hnot : stem f.filename ∉ feature_name_list e := by
    intro hmem
    rw [feature_name_list] at hmem
    obtain ⟨p, hp, hmem2⟩ := List.mem_flatMap.mp hmem
    rw [load_labels] at hp
    obtain ⟨d2, hd2, hp2⟩ := List.mem_filterMap.mp hp
    by_cases hr : d2.load_raises = true
    · rw [if_pos hr] at hp2
      exact absurd hp2 (by simp)
    · rw [if_neg hr] at hp2
      have hpe : (d2.dataset, d2.labels) = p := Option.some.inj hp2
      have hr2 : d2.load_raises = false := by simpa using hr
      apply honly d2 hd2 hr2
      rw [← hpe] at hmem2
      exact hmem2
  have hc : (feature_name_list e).contains (stem f.filename) = false := by
    simpa using hnot
  have hfil : f ∈ e.disk_features.filter
      fun g => !((feature_name_list e).contains (stem g.filename)) := by
    rw [List.mem_filter]
    exact ⟨hf, by rw [hc]; rfl⟩
  have hlen : 0 < (e.disk_features.filter
      fun g => !((feature_name_list e).contains (stem g.filename))).length :=
    List.length_pos.mpr (List.ne_nil_of_mem hfil)
  have hres : ((e.disk_features.filter
      fun g => !((feature_name_list e).contains (stem g.filename))).length == 0)
        = false := by
    rw [beq_eq_false_iff_ne]
    omega
  exact hres

/-- C10 witness: the concrete environment envSkip, in which the only
dataset referencing the on-disk feature file f1.pkl fails to load, makes
the orphan check fail. -/
theorem orphan_check_witness :
    dSkip.load_raises = true ∧
      stem fOrphan.filename ∈ dSkip.labels.map (·.feature_filename) ∧
      test_features_with_no_labels envSkip = false :=
  ⟨rfl, by decide,
    orphan_check_fails_for_skipped_dataset envSkip dSkip fOrphan
      (List.Mem.head _) rfl (List.Mem.head _) (by decide) (by decide)⟩

/-- C1 (the coordinate-closeness check cannot fail): the source
initializes total_num_mismatched to 0, never adds the per-dataset
num_mismatched to it, and asserts total_num_mismatched == 0, so the check
passes for every environment — including envMismatch, where a label's
longitude differs from the feature's recorded instance longitude by a
full degree (the claimed absolute-difference violation holds and the
signed per-dataset mismatch count is 1, yet the assertion passes). -/
theorem closeness_check_never_fails_despite_mismatch :
    (∀ e : Env, test_features_for_closeness e = true) ∧
      closeness_claim_violation envMismatch = true ∧
      closeness_num_mismatched envMismatch [lblMismatch] = 1 := by
  refine ⟨fun e => rfl, ?_, ?_⟩
  · simp [closeness_claim_violation, load_labels, envMismatch, lblMismatch,
      diZero]
    left
    norm_num [tol]
  · have hc : tol < (1 : Rat) := by norm_num [tol]
    simp [closeness_num_mismatched, envMismatch, lblMismatch, diZero,
      List.filter_cons, hc]

/-- Whenever the workflow templating succeeds (returns written output),
the template contained all three placeholder tokens, the output contains
each caller-supplied substitution string, and the output contains none
of the three tokens. -/
theorem fill_in_and_write_action_spec (template subPre subPaths subCd out : List Char)
    (h : fill_in_and_write_action template subPre subPaths subCd = Except.ok out) :
    occursIn tokPre template = true ∧ occursIn tokPaths template = true ∧
      occursIn tokCd template = true ∧
      occursIn subPre out = true ∧ occursIn subPaths out = true ∧
      occursIn subCd out = true ∧
      occursIn tokPre out = false ∧ occursIn tokPaths out = false ∧
      occursIn tokCd out = false := by
  simp only [fill_in_and_write_action] at h
  by_cases hpre : (occursIn tokPre template && occursIn tokPaths template &&
      occursIn tokCd template) = true
  case neg =>
    rw [if_neg hpre] at h
    exact absurd h (by simp)
  case pos =>
  rw [if_pos hpre] at h
  obtain ⟨⟨h1, h2⟩, h3⟩ :
      (occursIn tokPre template = true ∧ occursIn tokPaths template = true) ∧
        occursIn tokCd template = true := by
    simpa [Bool.and_eq_true] using hpre
  by_cases hrem : (occursIn tokPre (substTokens subPre subPaths subCd template) ||
      occursIn tokPaths (substTokens subPre subPaths subCd template) ||
      occursIn tokCd (substTokens subPre subPaths subCd template)) = true
  case pos =>
    rw [if_pos hrem] at h
    exact absurd h (by simp)
  case neg =>
  rw [if_neg hrem] at h
  have hout : substTokens subPre subPaths subCd template = out := Except.ok.inj h
  have hr : occursIn tokPre out = false ∧ occursIn tokPaths out = false ∧
      occursIn tokCd out = false := by
    rw [← hout]
    have := hrem
    simp only [Bool.or_eq_true, not_or, Bool.not_eq_true] at this
    exact ⟨this.1.1, this.1.2, this.2⟩
  refine ⟨h1, h2, h3, ?_, ?_, ?_, hr.1, hr.2.1, hr.2.2⟩
  · rw [← hout]
    exact occursIn_substTokens_tokPre _ _ _ template.length template le_rfl h1
  · rw [← hout]
    exact occursIn_substTokens_tokPaths _ _ _ template.length template le_rfl h2
  · rw [← hout]
    exact occursIn_substTokens_tokCd _ _ _ template.length template le_rfl h3

/-- A concrete template holding the three tokens, substituted with p, q,
r, succeeds and satisfies every conclusion of the preceding theorem. -/
theorem fill_in_and_write_action_witness :
    fill_in_and_write_action "<PREFIX> <PATHS> <CD>".data "p".data "q".data "r".data
        = Except.ok "p q r".data ∧
      (occursIn tokPre "<PREFIX> <PATHS> <CD>".data = true ∧
        occursIn tokPaths "<PREFIX> <PATHS> <CD>".data = true ∧
        occursIn tokCd "<PREFIX> <PATHS> <CD>".data = true ∧
        occursIn "p".data "p q r".data = true ∧
        occursIn "q".data "p q r".data = true ∧
        occursIn "r".data "p q r".data = true ∧
        occursIn tokPre "p q r".data = false ∧
        occursIn tokPaths "p q r".data = false ∧
        occursIn tokCd "p q r".data = false) := by
  have h : fill_in_and_write_action "<PREFIX> <PATHS> <CD>".data "p".data "q".data
      "r".data = Except.ok "p q r".data := by
    simp +decide [fill_in_and_write_action, substTokens]
  exact ⟨h, fill_in_and_write_action_spec _ _ _ _ _ h⟩

/-- C8 counterexample: the claim quantifies over arbitrary
caller-supplied substitution strings, but an adversarial first
substitution string consisting of a lone left square bracket makes the
written result unparseable as YAML (an unterminated flow sequence),
while the operation succeeds: the template is valid YAML and contains
all three tokens, and the output contains no token, so both placeholder
assertions pass. -/
theorem fill_in_yaml_counterexample :
    yaml_safe_load_ok yamlScenarioTemplate = true ∧
      fill_in_and_write_action yamlScenarioTemplate "[".data "q".data "r".data
        = Except.ok yamlBrokenOut ∧
      yaml_safe_load_ok yamlBrokenOut = false := by
  refine ⟨by decide, ?_, by decide⟩
  simp +decide [fill_in_and_write_action, substTokens, yamlScenarioTemplate,
    yamlBrokenOut]

/-- C8 (amended): whenever the workflow templating succeeds, the
template contained all three placeholder tokens, the output contains
each caller-supplied substitution string and none of the tokens; the
result is not guaranteed to parse as valid YAML for arbitrary
substitution strings, but for a valid template and the spec scenario's
substitution values proj, data/proj, cd data/proj, both the template and
the written result parse. -/
theorem fill_in_and_write_action_amended :
    (∀ template subPre subPaths subCd out,
        fill_in_and_write_action template subPre subPaths subCd = Except.ok out →
          occursIn tokPre template = true ∧ occursIn tokPaths template = true ∧
            occursIn tokCd template = true ∧
            occursIn subPre out = true ∧ occursIn subPaths out = true ∧
            occursIn subCd out = true ∧
            occursIn tokPre out = false ∧ occursIn tokPaths out = false ∧
            occursIn tokCd out = false) ∧
      (yaml_safe_load_ok yamlScenarioTemplate = true ∧
        fill_in_and_write_action yamlScenarioTemplate "proj".data "data/proj".data
            "cd data/proj".data = Except.ok yamlScenarioOut ∧
        yaml_safe_load_ok yamlScenarioOut = true) := by
  refine ⟨fun t p a c o h => fill_in_and_write_action_spec t p a c o h,
    by decide, ?_, by decide⟩
  simp +decide [fill_in_and_write_action, substTokens, yamlScenarioTemplate,
    yamlScenarioOut]
